import Mathlib

/-!
Shallow embedding of the Telethon publisher (`src/main.py`) and verification
of the frozen claims about it.

The program is a single class, `TelethonPublisher`.  Its state consists of an
in-memory configuration and group list together with their persisted JSON
files; `save_config` / `save_groups` copy the in-memory value into the file.
Dates (`datetime.now().strftime('%Y-%m-%d')`) are passed in as an explicit
`today : String` argument, the network transport is an explicit oracle
argument, and Python exceptions are modelled as classified outcome values.
-/

namespace Tpublish

/-- One entry of `groups.json`: `{chat_id, name, added_date}`. -/
structure Group where
  chat_id : String
  name : String
  added_date : String
deriving Repr, DecidableEq

/-- The `config.json` record (`load_config` defaults).  `last_sent` is the
Python dict mapping `"{chat_id}_{date}"` keys to integer counts, modelled as
an insertion-ordered association list. -/
structure Config where
  messages : List String
  delays : List Int
  min_delay : Int
  max_delay : Int
  daily_limit : Int
  last_sent : List (String × Int)
deriving Repr, DecidableEq

/-- Python dict read: first (unique) binding of the key. -/
def lookupLS : List (String × Int) → String → Option Int
  | [], _ => none
  | (k', v) :: rest, k => if k' = k then some v else lookupLS rest k

/-- Python dict write `d[k] = v`: update in place, or append a new binding. -/
def setLS : List (String × Int) → String → Int → List (String × Int)
  | [], k, v => [(k, v)]
  | (k', v') :: rest, k, v =>
      if k' = k then (k', v) :: rest else (k', v') :: setLS rest k v

/-- The count stored for a key, with an absent key read as 0. -/
def getCount (cfg : Config) (k : String) : Int :=
  (lookupLS cfg.last_sent k).getD 0

/-- The per-group-per-day key `f"{chat_id}_{today}"`. -/
def sendKey (chat_id today : String) : String :=
  chat_id ++ "_" ++ today

/-- The effective daily limit: tripled in force mode (`can_send_to_group`,
lines 184-188). -/
def effective_limit (force_mode : Bool) (daily_limit : Int) : Int :=
  if force_mode then daily_limit * 3 else daily_limit

/-- `TelethonPublisher.can_send_to_group` (lines 181-196).  Note that the
method mutates `self.config`: an absent key is first initialised to 0.  The
returned pair is (result, updated config). -/
def can_send_to_group (force_mode : Bool) (cfg : Config) (chat_id today : String) :
    Bool × Config :=
  let el := effective_limit force_mode cfg.daily_limit
  let k := sendKey chat_id today
  let cfg' :=
    if lookupLS cfg.last_sent k = none then
      { cfg with last_sent := setLS cfg.last_sent k 0 }
    else cfg
  (decide ((lookupLS cfg'.last_sent k).getD 0 < el), cfg')

/-- The `self.config` part of `TelethonPublisher.mark_sent_to_group`
(lines 198-206): initialise an absent key to 0, then increment it. -/
def mark_sent_config (cfg : Config) (chat_id today : String) : Config :=
  let k := sendKey chat_id today
  let ls :=
    if lookupLS cfg.last_sent k = none then setLS cfg.last_sent k 0
    else cfg.last_sent
  { cfg with last_sent := setLS ls k ((lookupLS ls k).getD 0 + 1) }

/-- Publisher state: in-memory config and groups plus the persisted
`config.json` / `groups.json` contents. -/
structure PState where
  config : Config
  groups : List Group
  config_file : Config
  groups_file : List Group
deriving Repr, DecidableEq

/-- `TelethonPublisher.save_config` (lines 173-179): write `self.config` to
`config.json`. -/
def save_config (st : PState) : PState :=
  { st with config_file := st.config }

/-- `TelethonPublisher.mark_sent_to_group` (lines 198-207): bump the counter
and persist the config. -/
def mark_sent_to_group (st : PState) (chat_id today : String) : PState :=
  save_config { st with config := mark_sent_config st.config chat_id today }

/-! ### Association-list lemmas -/

theorem lookupLS_setLS_self (l : List (String × Int)) (k : String) (v : Int) :
    lookupLS (setLS l k v) k = some v := by
  induction l with
  | nil => simp [setLS, lookupLS]
  | cons p rest ih =>
      obtain ⟨k', v'⟩ := p
      by_cases h : k' = k
      · simp [setLS, lookupLS, h]
      · simp [setLS, lookupLS, h, ih]

theorem lookupLS_setLS_ne (l : List (String × Int)) (k k' : String) (v : Int)
    (h : k' ≠ k) : lookupLS (setLS l k v) k' = lookupLS l k' := by
  induction l with
  | nil => simp [setLS, lookupLS, Ne.symm h]
  | cons p rest ih =>
      obtain ⟨k₀, v₀⟩ := p
      by_cases hk : k₀ = k
      · subst hk
        simp [setLS, lookupLS, Ne.symm h]
      · simp [setLS, lookupLS, hk, ih]

/-- The admission check never changes the count read for any key: the only
mutation is initialising an absent key to 0, which reads back as 0. -/
theorem getCount_can_send_snd (force_mode : Bool) (cfg : Config)
    (chat_id today k : String) :
    getCount (can_send_to_group force_mode cfg chat_id today).2 k = getCount cfg k := by
  unfold can_send_to_group getCount
  by_cases h : lookupLS cfg.last_sent (sendKey chat_id today) = none
  · by_cases hk : k = sendKey chat_id today
    · subst hk
      simp [h, lookupLS_setLS_self]
    · simp [h, lookupLS_setLS_ne _ _ _ _ hk]
  · simp [h]

/-- The boolean returned by the admission check, in terms of the original
stored count. -/
theorem can_send_fst_eq (force_mode : Bool) (cfg : Config) (chat_id today : String) :
    (can_send_to_group force_mode cfg chat_id today).1 =
      decide (getCount cfg (sendKey chat_id today) <
        effective_limit force_mode cfg.daily_limit) := by
  unfold can_send_to_group getCount
  by_cases h : lookupLS cfg.last_sent (sendKey chat_id today) = none
  · simp [h, lookupLS_setLS_self]
  · simp [h]

theorem getCount_mark_sent_self (cfg : Config) (chat_id today : String) :
    getCount (mark_sent_config cfg chat_id today) (sendKey chat_id today) =
      getCount cfg (sendKey chat_id today) + 1 := by
  unfold mark_sent_config getCount
  by_cases h : lookupLS cfg.last_sent (sendKey chat_id today) = none
  · simp [h, lookupLS_setLS_self]
  · simp [h, lookupLS_setLS_self]

theorem getCount_mark_sent_ne (cfg : Config) (chat_id today k : String)
    (hk : k ≠ sendKey chat_id today) :
    getCount (mark_sent_config cfg chat_id today) k = getCount cfg k := by
  unfold mark_sent_config getCount
  by_cases h : lookupLS cfg.last_sent (sendKey chat_id today) = none
  · simp [h, lookupLS_setLS_ne _ _ _ _ hk]
  · simp [h, lookupLS_setLS_ne _ _ _ _ hk]

theorem mark_sent_config_daily_limit (cfg : Config) (chat_id today : String) :
    (mark_sent_config cfg chat_id today).daily_limit = cfg.daily_limit := rfl

/-- Iterating `mark_sent_config` adds `n` to the stored count of the key. -/
theorem getCount_mark_sent_iterate (cfg : Config) (chat_id today : String) (n : Nat) :
    getCount ((fun c => mark_sent_config c chat_id today)^[n] cfg) (sendKey chat_id today) =
      getCount cfg (sendKey chat_id today) + n := by
  induction n with
  | zero => simp
  | succ m ih =>
      rw [Function.iterate_succ_apply', getCount_mark_sent_self, ih]
      push_cast
      ring

theorem daily_limit_mark_sent_iterate (cfg : Config) (chat_id today : String) (n : Nat) :
    ((fun c => mark_sent_config c chat_id today)^[n] cfg).daily_limit = cfg.daily_limit := by
  induction n with
  | zero => simp
  | succ m ih => rw [Function.iterate_succ_apply', mark_sent_config_daily_limit, ih]

/-- C1: the admission check returns true iff the stored count for key
`"{chat_id}_{today}"` (0 when absent) is strictly below the effective limit
(`daily_limit * 3` in force mode, `daily_limit` otherwise); and once it is
false it stays false under any further number of counter increments for that
key. -/
theorem can_send_to_group_correct (force_mode : Bool) (cfg : Config)
    (chat_id today : String) :
    ((can_send_to_group force_mode cfg chat_id today).1 = true ↔
      getCount cfg (sendKey chat_id today) <
        effective_limit force_mode cfg.daily_limit)
    ∧ ((can_send_to_group force_mode cfg chat_id today).1 = false →
        ∀ n : Nat,
          (can_send_to_group force_mode
            ((fun c => mark_sent_config c chat_id today)^[n] cfg)
            chat_id today).1 = false) := by
  constructor
  · rw [can_send_fst_eq]
    simp
  · intro hfalse n
    rw [can_send_fst_eq] at hfalse ⊢
    rw [getCount_mark_sent_iterate, daily_limit_mark_sent_iterate]
    simp only [decide_eq_false_iff_not, not_lt] at hfalse ⊢
    have hn : (0 : Int) ≤ n := by positivity
    linarith

/-- A concrete configuration whose counter for `"g_2025-01-01"` already
equals the daily limit. -/
def cfgW : Config :=
  { messages := ["m"], delays := [300], min_delay := 10, max_delay := 60,
    daily_limit := 2, last_sent := [("g_2025-01-01", 2)] }

theorem can_send_to_group_correct_witness :
    (can_send_to_group false cfgW "g" "2025-01-01").1 = false ∧
    (can_send_to_group false
      ((fun c => mark_sent_config c "g" "2025-01-01")^[3] cfgW)
      "g" "2025-01-01").1 = false := by
  refine ⟨by decide, ?_⟩
  exact (can_send_to_group_correct false cfgW "g" "2025-01-01").2 (by decide) 3

/-! ### Python `int(str)` conversion

`send_message_safely` begins with `chat_id_int = int(chat_id)`.  We model the
builtin conversion: surrounding whitespace is stripped, an optional sign is
followed by a non-empty ASCII digit sequence in which single underscores may
separate digits.  A string outside this grammar raises `ValueError`, modelled
as `none`. -/

def digitVal (c : Char) : Int :=
  (c.toNat : Int) - 48

/-- Digits after the first one: each further character is a digit or a single
underscore followed by a digit. -/
def parseDigitsGo : Int → List Char → Option Int
  | acc, [] => some acc
  | acc, '_' :: c :: cs =>
      if c.isDigit then parseDigitsGo (acc * 10 + digitVal c) cs else none
  | _, ['_'] => none
  | acc, c :: cs =>
      if c.isDigit then parseDigitsGo (acc * 10 + digitVal c) cs else none

/-- A non-empty digit sequence (underscores only between digits). -/
def parseDigits : List Char → Option Int
  | [] => none
  | c :: cs => if c.isDigit then parseDigitsGo (digitVal c) cs else none

/-- Python `str.strip()`: drop leading and trailing whitespace (result as a
character list). -/
def pyStrip (s : String) : List Char :=
  ((s.toList.dropWhile Char.isWhitespace).reverse.dropWhile Char.isWhitespace).reverse

/-- Model of the Python builtin `int : str -> int`. -/
def pyParseInt (s : String) : Option Int :=
  match pyStrip s with
  | '+' :: rest => parseDigits rest
  | '-' :: rest => (parseDigits rest).map Int.neg
  | rest => parseDigits rest

/-! ### Send executor -/

/-- The Telethon exceptions distinguished by `send_message_safely`, plus the
`ValueError` of the `int` conversion and a stand-in for any other
`Exception` subclass. -/
inductive Exc where
  | floodWait (seconds : Nat)
  | slowModeWait (seconds : Nat)
  | chatWriteForbidden
  | chatAdminRequired
  | userBannedInChannel
  | valueError
  | otherError
deriving Repr, DecidableEq

/-- Outcome of the one `client.send_message` call.  `raiseBase` stands for a
`BaseException` that is not an `Exception` (`KeyboardInterrupt`, task
cancellation): it is the process-interrupt channel and escapes every
`except Exception` handler. -/
inductive TransportOut where
  | success
  | raiseExc (e : Exc)
  | raiseBase
deriving Repr, DecidableEq

/-- Control-flow result of the `try` body of `send_message_safely`. -/
inductive BodyOut where
  | ret (b : Bool)
  | raised (e : Exc)
  | raisedBase
deriving Repr, DecidableEq

/-- What the caller of `send_message_safely` observes. -/
inductive CallerView where
  | returned (b : Bool)
  | raisedBase
deriving Repr, DecidableEq

structure BodyOutcome where
  out : BodyOut
  state : PState
  /-- network send attempts actually issued: `(chat_id_int, message)` -/
  attempts : List (Int × String)
deriving Repr, DecidableEq

/-- The `try` body of `send_message_safely` (lines 442-456): convert the chat
id, run the admission check (which may mutate the config), abort with `False`
when denied, otherwise issue the send; on transport success bump and persist
the counter and return `True`. -/
def send_body (force_mode : Bool) (st : PState) (chat_id message today : String)
    (transport : TransportOut) : BodyOutcome :=
  match pyParseInt chat_id with
  | none => ⟨.raised .valueError, st, []⟩
  | some chat_id_int =>
      let r := can_send_to_group force_mode st.config chat_id today
      let st1 : PState := { st with config := r.2 }
      if r.1 then
        match transport with
        | .success =>
            ⟨.ret true, mark_sent_to_group st1 chat_id today, [(chat_id_int, message)]⟩
        | .raiseExc e => ⟨.raised e, st1, [(chat_id_int, message)]⟩
        | .raiseBase => ⟨.raisedBase, st1, [(chat_id_int, message)]⟩
      else ⟨.ret false, st1, []⟩

structure SendOutcome where
  view : CallerView
  state : PState
  /-- seconds slept inside the executor (flood-wait / slow-mode handlers) -/
  sleeps : List Nat
  attempts : List (Int × String)
deriving Repr, DecidableEq

/-- `TelethonPublisher.send_message_safely` (lines 440-482): the `try` body
wrapped in the chain of `except` clauses.  Flood-wait and slow-mode sleep the
server-specified duration and return `False`; the permission errors return
`False`; the final `except Exception` absorbs everything else.  Only a
non-`Exception` interrupt (`raisedBase`) escapes. -/
def send_message_safely (force_mode : Bool) (st : PState)
    (chat_id message today : String) (transport : TransportOut) : SendOutcome :=
  match send_body force_mode st chat_id message today transport with
  | ⟨.ret b, st', att⟩ => ⟨.returned b, st', [], att⟩
  | ⟨.raised (.floodWait s), st', att⟩ => ⟨.returned false, st', [s], att⟩
  | ⟨.raised (.slowModeWait s), st', att⟩ => ⟨.returned false, st', [s], att⟩
  | ⟨.raised .chatWriteForbidden, st', att⟩ => ⟨.returned false, st', [], att⟩
  | ⟨.raised .chatAdminRequired, st', att⟩ => ⟨.returned false, st', [], att⟩
  | ⟨.raised .userBannedInChannel, st', att⟩ => ⟨.returned false, st', [], att⟩
  | ⟨.raised _, st', att⟩ => ⟨.returned false, st', [], att⟩
  | ⟨.raisedBase, st', att⟩ => ⟨.raisedBase, st', [], att⟩

/-- C2: the executor never lets an `Exception` reach its caller (only the
process-interrupt channel `raiseBase`, the cancellation mechanism, escapes);
when the admission check denies the group it returns `False` with no network
attempt; on transport success it increments the per-(chat_id, date) counter,
persists the config, and returns `True`. -/
theorem send_message_safely_contract (force_mode : Bool) (st : PState)
    (chat_id message today : String) (transport : TransportOut) :
    (transport ≠ .raiseBase →
      ∃ b, (send_message_safely force_mode st chat_id message today transport).view =
        .returned b)
    ∧ ((can_send_to_group force_mode st.config chat_id today).1 = false →
        (send_message_safely force_mode st chat_id message today transport).view =
            .returned false ∧
          (send_message_safely force_mode st chat_id message today transport).attempts = [])
    ∧ (transport = .success →
        ∀ cid, pyParseInt chat_id = some cid →
        (can_send_to_group force_mode st.config chat_id today).1 = true →
        (send_message_safely force_mode st chat_id message today transport).view =
            .returned true
          ∧ getCount (send_message_safely force_mode st chat_id message today
                transport).state.config (sendKey chat_id today) =
              getCount st.config (sendKey chat_id today) + 1
          ∧ (send_message_safely force_mode st chat_id message today
                transport).state.config_file =
              (send_message_safely force_mode st chat_id message today
                transport).state.config) := by
  refine ⟨?_, ?_, ?_⟩
  · intro hb
    unfold send_message_safely send_body
    cases hp : pyParseInt chat_id with
    | none => exact ⟨false, rfl⟩
    | some cid =>
        cases hcan : (can_send_to_group force_mode st.config chat_id today).1 with
        | false => simp [hcan]
        | true =>
            cases transport with
            | success => simp [hcan]
            | raiseExc e =>
                cases e <;> simp [hcan]
            | raiseBase => exact absurd rfl hb
  · intro hcan
    unfold send_message_safely send_body
    cases hp : pyParseInt chat_id with
    | none => exact ⟨rfl, rfl⟩
    | some cid => simp [hcan]
  · intro ht cid hp hcan
    subst ht
    have hb : send_body force_mode st chat_id message today .success =
        ⟨.ret true,
          mark_sent_to_group
            { st with config := (can_send_to_group force_mode st.config chat_id today).2 }
            chat_id today,
          [(cid, message)]⟩ := by
      unfold send_body
      rw [hp]
      simp [hcan]
    unfold send_message_safely
    rw [hb]
    refine ⟨rfl, ?_, rfl⟩
    show getCount (mark_sent_config
        (can_send_to_group force_mode st.config chat_id today).2 chat_id today)
        (sendKey chat_id today) =
      getCount st.config (sendKey chat_id today) + 1
    rw [getCount_mark_sent_self, getCount_can_send_snd]

/-- A publisher state whose counters are empty and whose single group is
below the daily limit. -/
def stW : PState :=
  { config := { messages := ["hello"], delays := [300], min_delay := 10,
                max_delay := 60, daily_limit := 2, last_sent := [] },
    groups := [⟨"101", "G", "2025-01-01"⟩],
    config_file := { messages := ["hello"], delays := [300], min_delay := 10,
                     max_delay := 60, daily_limit := 2, last_sent := [] },
    groups_file := [⟨"101", "G", "2025-01-01"⟩] }

theorem send_message_safely_contract_witness :
    TransportOut.success ≠ TransportOut.raiseBase ∧
    pyParseInt "101" = some 101 ∧
    (can_send_to_group false stW.config "101" "2025-01-01").1 = true ∧
    ((send_message_safely false stW "101" "hi" "2025-01-01" .success).view =
        .returned true
      ∧ getCount (send_message_safely false stW "101" "hi" "2025-01-01"
            .success).state.config (sendKey "101" "2025-01-01") =
          getCount stW.config (sendKey "101" "2025-01-01") + 1
      ∧ (send_message_safely false stW "101" "hi" "2025-01-01"
            .success).state.config_file =
          (send_message_safely false stW "101" "hi" "2025-01-01"
            .success).state.config) := by
  refine ⟨by decide, by decide, by decide, ?_⟩
  exact (send_message_safely_contract false stW "101" "hi" "2025-01-01"
    .success).2.2 rfl 101 (by decide) (by decide)

/-- C7: when the transport raises a flood-wait or slow-mode error carrying a
wait of `s` seconds, the executor sleeps exactly `s` seconds, returns
`False`, attempts the send exactly once (no retry after the sleep), leaves
every stored count unchanged, and does not persist anything. -/
theorem flood_wait_no_retry (force_mode : Bool) (st : PState)
    (chat_id message today : String) (s : Nat) (e : Exc) (cid : Int)
    (hp : pyParseInt chat_id = some cid)
    (hcan : (can_send_to_group force_mode st.config chat_id today).1 = true)
    (he : e = .floodWait s ∨ e = .slowModeWait s) :
    (send_message_safely force_mode st chat_id message today (.raiseExc e)).view =
        .returned false
    ∧ (send_message_safely force_mode st chat_id message today (.raiseExc e)).sleeps = [s]
    ∧ (send_message_safely force_mode st chat_id message today (.raiseExc e)).attempts =
        [(cid, message)]
    ∧ (∀ k, getCount (send_message_safely force_mode st chat_id message today
        (.raiseExc e)).state.config k = getCount st.config k)
    ∧ (send_message_safely force_mode st chat_id message today
        (.raiseExc e)).state.config_file = st.config_file := by
  have hb : send_body force_mode st chat_id message today (.raiseExc e) =
      ⟨.raised e,
        { st with config := (can_send_to_group force_mode st.config chat_id today).2 },
        [(cid, message)]⟩ := by
    unfold send_body
    rw [hp]
    simp [hcan]
  rcases he with he | he <;> subst he <;>
    · unfold send_message_safely
      rw [hb]
      exact ⟨rfl, rfl, rfl,
        fun k => getCount_can_send_snd force_mode st.config chat_id today k, rfl⟩

theorem flood_wait_no_retry_witness :
    pyParseInt "101" = some 101 ∧
    (can_send_to_group false stW.config "101" "2025-01-01").1 = true ∧
    (Exc.floodWait 5 = Exc.floodWait 5 ∨ Exc.floodWait 5 = Exc.slowModeWait 5) ∧
    ((send_message_safely false stW "101" "hi" "2025-01-01"
        (.raiseExc (.floodWait 5))).view = .returned false
      ∧ (send_message_safely false stW "101" "hi" "2025-01-01"
          (.raiseExc (.floodWait 5))).sleeps = [5]
      ∧ (send_message_safely false stW "101" "hi" "2025-01-01"
          (.raiseExc (.floodWait 5))).attempts = [(101, "hi")]
      ∧ (∀ k, getCount (send_message_safely false stW "101" "hi" "2025-01-01"
          (.raiseExc (.floodWait 5))).state.config k = getCount stW.config k)
      ∧ (send_message_safely false stW "101" "hi" "2025-01-01"
          (.raiseExc (.floodWait 5))).state.config_file = stW.config_file) := by
  refine ⟨by decide, by decide, Or.inl rfl, ?_⟩
  exact flood_wait_no_retry false stW "101" "hi" "2025-01-01" 5 (.floodWait 5) 101
    (by decide) (by decide) (Or.inl rfl)

/-- C10: a chat id that does not parse as an integer makes `send_message_safely`
return `False` with no network attempt, no sleep, and a completely unchanged
state: the `int` conversion sits inside the `try` block and its `ValueError`
is absorbed by the final `except Exception` clause. -/
theorem send_message_safely_unparsable_chat_id (force_mode : Bool) (st : PState)
    (chat_id message today : String) (transport : TransportOut)
    (hp : pyParseInt chat_id = none) :
    send_message_safely force_mode st chat_id message today transport =
      ⟨.returned false, st, [], []⟩ := by
  unfold send_message_safely send_body
  rw [hp]

theorem send_message_safely_unparsable_chat_id_witness :
    pyParseInt "abc" = none ∧
    send_message_safely false stW "abc" "hi" "2025-01-01" .success =
      ⟨.returned false, stW, [], []⟩ :=
  ⟨by decide,
    send_message_safely_unparsable_chat_id false stW "abc" "hi" "2025-01-01"
      .success (by decide)⟩

/-- A configuration whose `last_sent` dict does not yet hold the key for
group `"g1"` on `"2025-01-01"`. -/
def cfgNoKey : Config :=
  { messages := ["m"], delays := [300], min_delay := 10, max_delay := 60,
    daily_limit := 50, last_sent := [] }

/-- C4 counterexample: `can_send_to_group` does have a side effect on the
config — for an absent key it inserts a zero entry into `last_sent`
(lines 193-194), so the config after the call differs from the config
before it. -/
theorem can_send_to_group_not_pure :
    (can_send_to_group false cfgNoKey "g1" "2025-01-01").2 ≠ cfgNoKey := by
  decide

/-- C4 (amended): the admission check changes no stored count (an absent key
is merely initialised to 0, which reads back as 0), changes no other config
field, and persists nothing; a repeated check without an intervening
increment returns the same result and leaves the config fixed; and
`mark_sent_to_group` is what increments the key's count by exactly 1 and
persists the config. -/
theorem can_send_to_group_frame (force_mode : Bool) (cfg : Config)
    (chat_id today : String) :
    (∀ k, getCount (can_send_to_group force_mode cfg chat_id today).2 k = getCount cfg k)
    ∧ (can_send_to_group force_mode cfg chat_id today).2.messages = cfg.messages
    ∧ (can_send_to_group force_mode cfg chat_id today).2.delays = cfg.delays
    ∧ (can_send_to_group force_mode cfg chat_id today).2.min_delay = cfg.min_delay
    ∧ (can_send_to_group force_mode cfg chat_id today).2.max_delay = cfg.max_delay
    ∧ (can_send_to_group force_mode cfg chat_id today).2.daily_limit = cfg.daily_limit
    ∧ can_send_to_group force_mode (can_send_to_group force_mode cfg chat_id today).2
        chat_id today = can_send_to_group force_mode cfg chat_id today
    ∧ (∀ k, getCount (mark_sent_config cfg chat_id today) k =
        getCount cfg k + (if k = sendKey chat_id today then 1 else 0))
    ∧ (∀ st : PState, (mark_sent_to_group st chat_id today).config_file =
        (mark_sent_to_group st chat_id today).config) := by
  refine ⟨getCount_can_send_snd force_mode cfg chat_id today, ?_, ?_, ?_, ?_, ?_, ?_, ?_,
    fun st => rfl⟩
  · unfold can_send_to_group
    dsimp only
    split <;> rfl
  · unfold can_send_to_group
    dsimp only
    split <;> rfl
  · unfold can_send_to_group
    dsimp only
    split <;> rfl
  · unfold can_send_to_group
    dsimp only
    split <;> rfl
  · unfold can_send_to_group
    dsimp only
    split <;> rfl
  · unfold can_send_to_group
    by_cases h : lookupLS cfg.last_sent (sendKey chat_id today) = none
    · simp [h, lookupLS_setLS_self]
    · simp [h]
  · intro k
    by_cases hk : k = sendKey chat_id today
    · subst hk
      simp [getCount_mark_sent_self]
    · simp [hk, getCount_mark_sent_ne cfg chat_id today k hk]

/-! ### Publisher loop -/

/-- A coroutine scheduled for one group in one round: its chat id, display
name, and staggered start offset (`len(tasks) * 2` seconds at creation). -/
structure STask where
  chat_id : String
  group_name : String
  stagger : Nat
deriving Repr, DecidableEq

/-- What one gather slot holds after the batch: the task's boolean result, or
the exception object that `asyncio.gather(..., return_exceptions=True)`
captured when the task's send path raised past every handler. -/
inductive TaskOut where
  | value (b : Bool)
  | excObj
deriving Repr, DecidableEq

/-- One task's observable record inside a round: identity, stagger offset,
seconds slept by the executor, network attempts, and gather slot value. -/
structure TaskRecord where
  chat_id : String
  group_name : String
  stagger : Nat
  sleeps : List Nat
  attempts : List (Int × String)
  out : TaskOut
deriving Repr, DecidableEq

/-- The task-creation loop of `start_publishing` (lines 525-537): walk the
groups in order, run the admission check on each (threading its config
mutation), skip denied groups, and give the n-th created task a stagger of
`n * 2` seconds. -/
def schedule_tasks (force_mode : Bool) (today : String) :
    List Group → Config → Nat → List STask × Config
  | [], cfg, _ => ([], cfg)
  | g :: gs, cfg, scheduled =>
      let r := can_send_to_group force_mode cfg g.chat_id today
      if r.1 then
        let rest := schedule_tasks force_mode today gs r.2 (scheduled + 1)
        (⟨g.chat_id, g.name, scheduled * 2⟩ :: rest.1, rest.2)
      else
        schedule_tasks force_mode today gs r.2 scheduled

/-- `TelethonPublisher.send_to_group_with_delay` (lines 556-574): sleep the
stagger, run the safe send, return its boolean.  Its own
`except Exception` can never fire (the safe send absorbs every
`Exception`); a `raiseBase` interrupt escapes it too and becomes the
gather slot's exception object. -/
def send_to_group_with_delay (force_mode : Bool) (st : PState)
    (chat_id group_name message today : String) (delay : Nat)
    (transport : TransportOut) : TaskRecord × PState :=
  let o := send_message_safely force_mode st chat_id message today transport
  match o.view with
  | .returned b => (⟨chat_id, group_name, delay, o.sleeps, o.attempts, .value b⟩, o.state)
  | .raisedBase => (⟨chat_id, group_name, delay, o.sleeps, o.attempts, .excObj⟩, o.state)

/-- `await asyncio.gather(*tasks, return_exceptions=True)` (line 541): every
task runs to completion and fills its slot in creation order; the single
cooperative scheduler serialises the state mutations.  The transport oracle
gives each group's send outcome for this round. -/
def run_tasks (force_mode : Bool) (message today : String)
    (transport : String → TransportOut) :
    List STask → PState → List TaskRecord × PState
  | [], st => ([], st)
  | t :: ts, st =>
      let r := send_to_group_with_delay force_mode st t.chat_id t.group_name
        message today t.stagger (transport t.chat_id)
      let rest := run_tasks force_mode message today transport ts r.2
      (r.1 :: rest.1, rest.2)

/-- `sum(1 for result in results if result is True)` (line 544). -/
def count_successful (results : List TaskOut) : Nat :=
  results.countP (fun r => decide (r = TaskOut.value true))

/-- One message's round (lines 522-547): create the tasks, gather them, and
tally the successful sends. -/
def run_round (force_mode : Bool) (transport : String → TransportOut)
    (today message : String) (st : PState) : List TaskRecord × PState × Nat :=
  let sched := schedule_tasks force_mode today st.groups st.config 0
  let ran := run_tasks force_mode message today transport sched.1
    { st with config := sched.2 }
  (ran.1, ran.2, count_successful (ran.1.map TaskRecord.out))

/-- `delays[i]` when the index is in range, else the fixed 300-second
fallback (lines 514-517). -/
def delayFor (delays : List Int) (i : Nat) : Int :=
  match delays.get? i with
  | some d => d
  | none => 300

/-- Observable events of a run.  A round's concurrently-gathered sends are
one `batch` event (their completion order is not observed); `wait` is the
pre-message sleep; `cycleWait` is the 30-second pause of force mode. -/
inductive Event where
  | wait (index : Nat) (delay : Int)
  | batch (index : Nat) (records : List TaskRecord)
  | cycleWait (seconds : Nat)
deriving Repr, DecidableEq

/-- The `for message_index, message in enumerate(...)` loop of
`start_publishing` (lines 512-547): sleep this message's delay, run the
round, then continue with the next index. -/
def publish_loop (force_mode : Bool) (transport : Nat → String → TransportOut)
    (today : String) (delays : List Int) :
    Nat → List String → PState → PState × List Event × Nat
  | _, [], st => (st, [], 0)
  | i, message :: rest, st =>
      let round := run_round force_mode (transport i) today message st
      let next := publish_loop force_mode transport today delays (i + 1) rest round.2.1
      (next.1,
        Event.wait i (delayFor delays i) :: Event.batch i round.1 :: next.2.1,
        round.2.2 + next.2.2)

/-- `TelethonPublisher.start_publishing` (lines 484-549): abort when no group
is registered, when the message list is empty, or when the first message is
blank; in interactive (non-force) mode additionally abort unless the user
confirms; otherwise run the message loop.  Result: final state, event
trace, and `total_sent`. -/
def start_publishing (force_mode confirm : Bool)
    (transport : Nat → String → TransportOut) (today : String) (st : PState) :
    PState × List Event × Nat :=
  if st.groups.isEmpty then (st, [], 0)
  else if st.config.messages.isEmpty || (pyStrip (st.config.messages.headD "")).isEmpty then
    (st, [], 0)
  else if !force_mode && !confirm then (st, [], 0)
  else publish_loop force_mode transport today st.config.delays 0 st.config.messages st

/-- The `while True` body of force mode in `TelethonPublisher.run`
(lines 624-631), unrolled for a given number of cycles: run
`start_publishing`, wait 30 seconds, repeat.  The per-cycle transport oracle
is indexed by the number of cycles still to run. -/
def publish_cycles (transport : Nat → Nat → String → TransportOut)
    (today : String) : Nat → PState → PState × List Event
  | 0, st => (st, [])
  | n + 1, st =>
      let c := start_publishing true true (transport n) today st
      let rest := publish_cycles transport today n c.1
      (rest.1, c.2.1 ++ Event.cycleWait 30 :: rest.2)

/-- The force-mode branch of `TelethonPublisher.run` (lines 601-634):
validate the in-memory groups and messages once, then cycle. -/
def run_force (transport : Nat → Nat → String → TransportOut) (today : String)
    (cycles : Nat) (st : PState) : PState × List Event :=
  if st.groups.isEmpty then (st, [])
  else if st.config.messages.isEmpty || (pyStrip (st.config.messages.headD "")).isEmpty then
    (st, [])
  else publish_cycles transport today cycles st

/-- `TelethonPublisher.set_message_count` (lines 336-369) after the input was
parsed to `count`: reject a non-positive count unchanged, otherwise pad the
messages with placeholders (or truncate) to `count`, pad the delays with the
300-second default (or truncate) to `count`, and persist. -/
def set_message_count (st : PState) (count : Int) : PState :=
  if count ≤ 0 then st
  else
    let n := count.toNat
    let msgs := st.config.messages
    let msgs' :=
      if msgs.length < n then
        msgs ++ (List.range' msgs.length (n - msgs.length)).map
          (fun i => "Message " ++ toString (i + 1) ++ " - please edit this")
      else if n < msgs.length then msgs.take n
      else msgs
    let ds := st.config.delays
    let ds' :=
      if ds.length < n then ds ++ List.replicate (n - ds.length) (300 : Int)
      else if n < ds.length then ds.take n
      else ds
    save_config { st with config := { st.config with messages := msgs', delays := ds' } }

/-! ### C3: ordering of waits and batches -/

/-- An event with its batch records erased: used to state the shape of a
run's trace. -/
inductive EventShape where
  | waitS (index : Nat) (delay : Int)
  | batchS (index : Nat)
  | cycleS (seconds : Nat)
deriving Repr, DecidableEq

def eventShape : Event → EventShape
  | .wait i d => .waitS i d
  | .batch i _ => .batchS i
  | .cycleWait s => .cycleS s

/-- Shape of the message loop's trace: for each message index in order, the
wait with that message's delay and then that message's batch. -/
theorem publish_loop_shape (force_mode : Bool) (transport : Nat → String → TransportOut)
    (today : String) (delays : List Int) :
    ∀ (msgs : List String) (i : Nat) (st : PState),
    (publish_loop force_mode transport today delays i msgs st).2.1.map eventShape =
      (List.range' i msgs.length).flatMap
        (fun j => [EventShape.waitS j (delayFor delays j), EventShape.batchS j]) := by
  intro msgs
  induction msgs with
  | nil => intro i st; simp [publish_loop]
  | cons m rest ih =>
      intro i st
      simp [publish_loop, List.range'_succ, ih, eventShape]

/-- C3: in a run that passes validation (and, interactively, confirmation),
the trace is exactly: for each message index `i` in increasing order, a sleep
of `delays[i]` seconds (300 when the delays list is too short) directly
followed by message `i`'s whole batch — so the sleep precedes the sends of
message `i`, and message `i+1`'s wait begins only after message `i`'s batch
has resolved. -/
theorem start_publishing_ordering (force_mode confirm : Bool)
    (transport : Nat → String → TransportOut) (today : String) (st : PState)
    (hg : st.groups.isEmpty = false)
    (hm : (st.config.messages.isEmpty ||
      (pyStrip (st.config.messages.headD "")).isEmpty) = false)
    (hc : (!force_mode && !confirm) = false) :
    (start_publishing force_mode confirm transport today st).2.1.map eventShape =
      (List.range st.config.messages.length).flatMap
        (fun i => [EventShape.waitS i (delayFor st.config.delays i),
                   EventShape.batchS i]) := by
  unfold start_publishing
  rw [List.range_eq_range']
  simp only [hg, hm, hc, Bool.false_eq_true, if_false]
  exact publish_loop_shape force_mode transport today st.config.delays
    st.config.messages 0 st

theorem start_publishing_ordering_witness :
    stW.groups.isEmpty = false ∧
    (stW.config.messages.isEmpty ||
      (pyStrip (stW.config.messages.headD "")).isEmpty) = false ∧
    (!true && !true) = false ∧
    (start_publishing true true (fun _ _ => TransportOut.success) "2025-01-01"
        stW).2.1.map eventShape =
      (List.range stW.config.messages.length).flatMap
        (fun i => [EventShape.waitS i (delayFor stW.config.delays i),
                   EventShape.batchS i]) := by
  refine ⟨by decide, by decide, rfl, ?_⟩
  exact start_publishing_ordering true true (fun _ _ => TransportOut.success)
    "2025-01-01" stW (by decide) (by decide) rfl

/-! ### C5: entry validation -/

/-- A state with one registered group whose message list `["", "hi"]`
contains a non-empty message, but whose first message is empty. -/
def stGate : PState :=
  { config := { messages := ["", "hi"], delays := [1, 1], min_delay := 10,
                max_delay := 60, daily_limit := 50, last_sent := [] },
    groups := [⟨"101", "G", "2025-01-01"⟩],
    config_file := { messages := ["", "hi"], delays := [1, 1], min_delay := 10,
                     max_delay := 60, daily_limit := 50, last_sent := [] },
    groups_file := [⟨"101", "G", "2025-01-01"⟩] }

/-- C5 counterexample: a group is registered and a non-empty message ("hi")
is configured, yet the loop aborts immediately — the code's validation
requires the *first* message to be non-blank, not merely that some message
is. -/
theorem start_publishing_gate_counterexample :
    stGate.groups ≠ [] ∧
    "hi" ∈ stGate.config.messages ∧ pyStrip "hi" ≠ [] ∧
    start_publishing true true (fun _ _ => TransportOut.success) "2025-01-01" stGate =
      (stGate, [], 0) := by
  refine ⟨by decide, by decide, by decide, rfl⟩

/-- C5 (amended): the entry validation aborts immediately with no event and
no state change unless at least one group is registered and the *first*
configured message is non-blank; when that validation passes (and the run is
forced or confirmed), the loop proceeds directly to the first message's
wait. -/
theorem start_publishing_validation (force_mode confirm : Bool)
    (transport : Nat → String → TransportOut) (today : String) (st : PState) :
    ((st.groups = [] ∨ st.config.messages = [] ∨
        pyStrip (st.config.messages.headD "") = []) →
      start_publishing force_mode confirm transport today st = (st, [], 0))
    ∧ (st.groups ≠ [] → st.config.messages ≠ [] →
        pyStrip (st.config.messages.headD "") ≠ [] →
        (force_mode || confirm) = true →
        ∃ records rest,
          (start_publishing force_mode confirm transport today st).2.1 =
            Event.wait 0 (delayFor st.config.delays 0) ::
              Event.batch 0 records :: rest) := by
  constructor
  · intro h
    unfold start_publishing
    split
    · rfl
    next hg =>
      split
      · rfl
      next hm =>
        split
        · rfl
        next hcf =>
          exfalso
          rcases h with h | h | h
          · exact hg (by simp [h])
          · exact hm (by simp [h])
          · exact hm (by rw [h]; simp)
  · intro hg hm hs hcf
    obtain ⟨m, ms, hmm⟩ := List.exists_cons_of_ne_nil hm
    rw [hmm] at hs
    have hb : (!force_mode && !confirm) = false := by
      rw [← Bool.not_or, hcf]
      rfl
    have hpm : (pyStrip m).isEmpty = false := by
      cases hc2 : pyStrip m with
      | nil => exact absurd hc2 hs
      | cons a l => rfl
    have hge : st.groups.isEmpty = false := by
      cases hgg : st.groups with
      | nil => exact absurd hgg hg
      | cons g gs => rfl
    have htr : (start_publishing force_mode confirm transport today st).2.1 =
        Event.wait 0 (delayFor st.config.delays 0) ::
          Event.batch 0 (run_round force_mode (transport 0) today m st).1 ::
          (publish_loop force_mode transport today st.config.delays 1 ms
            (run_round force_mode (transport 0) today m st).2.1).2.1 := by
      unfold start_publishing
      rw [hmm]
      simp [hge, hpm, hb, publish_loop]
    exact ⟨_, _, htr⟩

theorem start_publishing_validation_witness :
    stW.groups ≠ [] ∧ stW.config.messages ≠ [] ∧
    pyStrip (stW.config.messages.headD "") ≠ [] ∧ (true || true) = true ∧
    (∃ records rest,
      (start_publishing true true (fun _ _ => TransportOut.success) "2025-01-01"
          stW).2.1 =
        Event.wait 0 (delayFor stW.config.delays 0) ::
          Event.batch 0 records :: rest) := by
  refine ⟨by decide, by decide, by decide, rfl, ?_⟩
  exact (start_publishing_validation true true (fun _ _ => TransportOut.success)
    "2025-01-01" stW).2 (by decide) (by decide) (by decide) rfl

/-! ### C8: tallying -/

/-- The tally of a batch event: the number of gather slots holding `True`. -/
def batchTally : Event → Option Nat
  | .batch _ records => some (count_successful (records.map TaskRecord.out))
  | _ => none

theorem run_round_tally (force_mode : Bool) (tr : String → TransportOut)
    (today message : String) (st : PState) :
    (run_round force_mode tr today message st).2.2 =
      count_successful ((run_round force_mode tr today message st).1.map
        TaskRecord.out) := rfl

/-- C8: the gather fills one result slot per scheduled task (no task aborts
the batch — an exception object simply occupies its slot), an exception slot
is not counted as a success, the tally counts exactly the slots holding
`True`, and the loop's reported total is the sum of the per-batch tallies
over the whole run. -/
theorem batch_tally_correct (force_mode : Bool)
    (transport : Nat → String → TransportOut) (today : String) (delays : List Int) :
    (∀ (message : String) (tr : String → TransportOut) (tasks : List STask)
        (st : PState),
      ((run_tasks force_mode message today tr tasks st).1).length = tasks.length)
    ∧ (∀ outs : List TaskOut,
        count_successful (TaskOut.excObj :: outs) = count_successful outs)
    ∧ (∀ outs : List TaskOut, count_successful outs ≤ outs.length)
    ∧ (∀ (msgs : List String) (i : Nat) (st : PState),
        (publish_loop force_mode transport today delays i msgs st).2.2 =
          ((publish_loop force_mode transport today delays i msgs st).2.1.filterMap
            batchTally).sum) := by
  refine ⟨?_, ?_, ?_, ?_⟩
  · intro message tr tasks
    induction tasks with
    | nil => intro st; rfl
    | cons t ts ih => intro st; simp [run_tasks, ih]
  · intro outs
    simp [count_successful]
  · intro outs
    exact List.countP_le_length _
  · intro msgs
    induction msgs with
    | nil => intro i st; rfl
    | cons m rest ih =>
        intro i st
        simp [publish_loop, batchTally, ih, run_round_tally]

/-! ### C6: force-mode cycles run on the in-memory state

The lemmas below show that the publishing pipeline never reads the
`config_file` / `groups_file` components: two states that agree on the
in-memory `config` and `groups` produce identical traces and totals. -/

/-- The caller view determined by the body outcome (the `except` chain). -/
def viewOf : BodyOut → CallerView
  | .ret b => .returned b
  | .raised _ => .returned false
  | .raisedBase => .raisedBase

/-- The executor's sleeps determined by the body outcome. -/
def sleepsOf : BodyOut → List Nat
  | .raised (.floodWait s) => [s]
  | .raised (.slowModeWait s) => [s]
  | _ => []

theorem send_message_safely_eq (force_mode : Bool) (st : PState)
    (chat_id message today : String) (transport : TransportOut) :
    send_message_safely force_mode st chat_id message today transport =
      ⟨viewOf (send_body force_mode st chat_id message today transport).out,
        (send_body force_mode st chat_id message today transport).state,
        sleepsOf (send_body force_mode st chat_id message today transport).out,
        (send_body force_mode st chat_id message today transport).attempts⟩ := by
  unfold send_message_safely
  generalize send_body force_mode st chat_id message today transport = b
  obtain ⟨out, st', att⟩ := b
  cases out with
  | ret b => rfl
  | raised e => cases e <;> rfl
  | raisedBase => rfl

/-- The gather slot determined by the caller view. -/
def outOf : CallerView → TaskOut
  | .returned b => .value b
  | .raisedBase => .excObj

theorem send_to_group_with_delay_eq (force_mode : Bool) (st : PState)
    (chat_id group_name message today : String) (delay : Nat)
    (transport : TransportOut) :
    send_to_group_with_delay force_mode st chat_id group_name message today delay
        transport =
      (⟨chat_id, group_name, delay,
          (send_message_safely force_mode st chat_id message today transport).sleeps,
          (send_message_safely force_mode st chat_id message today transport).attempts,
          outOf (send_message_safely force_mode st chat_id message today transport).view⟩,
        (send_message_safely force_mode st chat_id message today transport).state) := by
  unfold send_to_group_with_delay
  generalize send_message_safely force_mode st chat_id message today transport = o
  obtain ⟨v, st', sl, att⟩ := o
  cases v <;> rfl

theorem send_body_mem (force_mode : Bool) (s t : PState)
    (chat_id message today : String) (transport : TransportOut)
    (hc : s.config = t.config) (hg : s.groups = t.groups) :
    (send_body force_mode s chat_id message today transport).out =
      (send_body force_mode t chat_id message today transport).out
    ∧ (send_body force_mode s chat_id message today transport).attempts =
      (send_body force_mode t chat_id message today transport).attempts
    ∧ (send_body force_mode s chat_id message today transport).state.config =
      (send_body force_mode t chat_id message today transport).state.config
    ∧ (send_body force_mode s chat_id message today transport).state.groups =
      (send_body force_mode t chat_id message today transport).state.groups := by
  unfold send_body
  cases pyParseInt chat_id with
  | none => exact ⟨rfl, rfl, hc, hg⟩
  | some cid =>
      rw [hc]
      by_cases hr : (can_send_to_group force_mode t.config chat_id today).1 = true
      · cases transport with
        | success => simp [hr, mark_sent_to_group, save_config, hg]
        | raiseExc e => simp [hr, hg]
        | raiseBase => simp [hr, hg]
      · simp [hr, hg]

theorem run_tasks_mem (force_mode : Bool) (message today : String)
    (tr : String → TransportOut) :
    ∀ (tasks : List STask) (s t : PState), s.config = t.config →
      s.groups = t.groups →
      (run_tasks force_mode message today tr tasks s).1 =
        (run_tasks force_mode message today tr tasks t).1
      ∧ (run_tasks force_mode message today tr tasks s).2.config =
        (run_tasks force_mode message today tr tasks t).2.config
      ∧ (run_tasks force_mode message today tr tasks s).2.groups =
        (run_tasks force_mode message today tr tasks t).2.groups := by
  intro tasks
  induction tasks with
  | nil => intro s t hc hg; exact ⟨rfl, hc, hg⟩
  | cons tk ts ih =>
      intro s t hc hg
      obtain ⟨h1, h2, h3, h4⟩ :=
        send_body_mem force_mode s t tk.chat_id message today (tr tk.chat_id) hc hg
      have hih := ih
        (send_body force_mode s tk.chat_id message today (tr tk.chat_id)).state
        (send_body force_mode t tk.chat_id message today (tr tk.chat_id)).state h3 h4
      simp only [run_tasks, send_to_group_with_delay_eq, send_message_safely_eq]
      refine ⟨?_, ?_, ?_⟩
      · rw [h1, h2, hih.1]
      · exact hih.2.1
      · exact hih.2.2

theorem run_round_mem (force_mode : Bool) (tr : String → TransportOut)
    (today message : String) (s t : PState) (hc : s.config = t.config)
    (hg : s.groups = t.groups) :
    (run_round force_mode tr today message s).1 =
      (run_round force_mode tr today message t).1
    ∧ (run_round force_mode tr today message s).2.1.config =
      (run_round force_mode tr today message t).2.1.config
    ∧ (run_round force_mode tr today message s).2.1.groups =
      (run_round force_mode tr today message t).2.1.groups
    ∧ (run_round force_mode tr today message s).2.2 =
      (run_round force_mode tr today message t).2.2 := by
  simp only [run_round]
  rw [hc, hg]
  have h := run_tasks_mem force_mode message today tr
    (schedule_tasks force_mode today t.groups t.config 0).1
    { config := (schedule_tasks force_mode today t.groups t.config 0).2,
      groups := t.groups, config_file := s.config_file,
      groups_file := s.groups_file }
    { config := (schedule_tasks force_mode today t.groups t.config 0).2,
      groups := t.groups, config_file := t.config_file,
      groups_file := t.groups_file }
    rfl rfl
  exact ⟨h.1, h.2.1, h.2.2, by rw [h.1]⟩

theorem publish_loop_mem (force_mode : Bool)
    (transport : Nat → String → TransportOut) (today : String) (delays : List Int) :
    ∀ (msgs : List String) (i : Nat) (s t : PState), s.config = t.config →
      s.groups = t.groups →
      (publish_loop force_mode transport today delays i msgs s).2.1 =
        (publish_loop force_mode transport today delays i msgs t).2.1
      ∧ (publish_loop force_mode transport today delays i msgs s).2.2 =
        (publish_loop force_mode transport today delays i msgs t).2.2
      ∧ (publish_loop force_mode transport today delays i msgs s).1.config =
        (publish_loop force_mode transport today delays i msgs t).1.config
      ∧ (publish_loop force_mode transport today delays i msgs s).1.groups =
        (publish_loop force_mode transport today delays i msgs t).1.groups := by
  intro msgs
  induction msgs with
  | nil => intro i s t hc hg; exact ⟨rfl, rfl, hc, hg⟩
  | cons m rest ih =>
      intro i s t hc hg
      have hr := run_round_mem force_mode (transport i) today m s t hc hg
      have hih := ih (i + 1) (run_round force_mode (transport i) today m s).2.1
        (run_round force_mode (transport i) today m t).2.1 hr.2.1 hr.2.2.1
      simp only [publish_loop]
      refine ⟨?_, ?_, hih.2.2.1, hih.2.2.2⟩
      · rw [hr.1, hih.1]
      · rw [hr.2.2.2, hih.2.1]

theorem start_publishing_mem (force_mode confirm : Bool)
    (transport : Nat → String → TransportOut) (today : String) (s t : PState)
    (hc : s.config = t.config) (hg : s.groups = t.groups) :
    (start_publishing force_mode confirm transport today s).2.1 =
      (start_publishing force_mode confirm transport today t).2.1
    ∧ (start_publishing force_mode confirm transport today s).2.2 =
      (start_publishing force_mode confirm transport today t).2.2
    ∧ (start_publishing force_mode confirm transport today s).1.config =
      (start_publishing force_mode confirm transport today t).1.config
    ∧ (start_publishing force_mode confirm transport today s).1.groups =
      (start_publishing force_mode confirm transport today t).1.groups := by
  unfold start_publishing
  rw [hc, hg]
  split
  · exact ⟨rfl, rfl, hc, hg⟩
  · split
    · exact ⟨rfl, rfl, hc, hg⟩
    · split
      · exact ⟨rfl, rfl, hc, hg⟩
      · have h := publish_loop_mem force_mode transport today t.config.delays
          t.config.messages 0 s t hc hg
        exact ⟨h.1, h.2.1, h.2.2.1, h.2.2.2⟩

theorem publish_cycles_mem (transport : Nat → Nat → String → TransportOut)
    (today : String) :
    ∀ (n : Nat) (s t : PState), s.config = t.config → s.groups = t.groups →
      (publish_cycles transport today n s).2 = (publish_cycles transport today n t).2
      ∧ (publish_cycles transport today n s).1.config =
        (publish_cycles transport today n t).1.config
      ∧ (publish_cycles transport today n s).1.groups =
        (publish_cycles transport today n t).1.groups := by
  intro n
  induction n with
  | zero => intro s t hc hg; exact ⟨rfl, hc, hg⟩
  | succ n ih =>
      intro s t hc hg
      have hs := start_publishing_mem true true (transport n) today s t hc hg
      have hih := ih (start_publishing true true (transport n) today s).1
        (start_publishing true true (transport n) today t).1 hs.2.2.1 hs.2.2.2
      simp only [publish_cycles]
      exact ⟨by rw [hs.1, hih.1], hih.2.1, hih.2.2⟩

/-- C6 (amended): force mode repeats `start_publishing` with a 30-second
cycle wait after each run, threading the publisher's **in-memory** config and
groups from cycle to cycle; the persisted files are only written, never
re-read — two states agreeing in memory produce identical traces whatever
their persisted file contents, so a runtime edit of the persisted config does
not take effect on later cycles of the same process. -/
theorem publish_cycles_spec (transport : Nat → Nat → String → TransportOut)
    (today : String) (n : Nat) (st : PState) :
    ((publish_cycles transport today (n + 1) st).2 =
      (start_publishing true true (transport n) today st).2.1 ++
        Event.cycleWait 30 ::
          (publish_cycles transport today n
            (start_publishing true true (transport n) today st).1).2)
    ∧ (∀ (fileConfig : Config) (fileGroups : List Group),
        (publish_cycles transport today n
          { st with config_file := fileConfig, groups_file := fileGroups }).2 =
        (publish_cycles transport today n st).2) := by
  refine ⟨rfl, fun fileConfig fileGroups => ?_⟩
  exact (publish_cycles_mem transport today n
    { st with config_file := fileConfig, groups_file := fileGroups } st rfl rfl).1

/-- A publisher whose persisted `config.json` holds a second message that the
in-memory config (read once at startup) does not. -/
def stStale : PState :=
  { config := { messages := ["A"], delays := [0], min_delay := 10, max_delay := 60,
                daily_limit := 50, last_sent := [] },
    groups := [⟨"101", "G", "2025-01-01"⟩],
    config_file := { messages := ["A", "B"], delays := [0, 0], min_delay := 10,
                     max_delay := 60, daily_limit := 50, last_sent := [] },
    groups_file := [⟨"101", "G", "2025-01-01"⟩] }

/-- The state a re-read of the persisted files would produce. -/
def stFresh : PState :=
  { stStale with config := stStale.config_file }

/-- C6 counterexample: `stStale` and `stFresh` have identical persisted
files, yet the next cycle behaves differently on them; a repetition is
therefore not an independent run re-read from persisted state, and the
persisted edit (a second message) does not take effect. -/
theorem publish_cycles_ignore_file :
    stStale.config_file = stFresh.config_file ∧
    stStale.groups_file = stFresh.groups_file ∧
    (publish_cycles (fun _ _ _ => TransportOut.success) "2025-01-01" 1 stStale).2 ≠
      (publish_cycles (fun _ _ _ => TransportOut.success) "2025-01-01" 1 stFresh).2 := by
  refine ⟨rfl, rfl, by decide⟩

/-! ### C9: set_message_count -/

theorem padIf_length {α : Type} (l : List α) (n : Nat) (ext : List α)
    (hext : ext.length = n - l.length) :
    (if l.length < n then l ++ ext else if n < l.length then l.take n
      else l).length = n := by
  by_cases h1 : l.length < n
  · simp only [h1, if_true, List.length_append, hext]
    omega
  · by_cases h2 : n < l.length
    · simp only [h1, if_false, h2, if_true, List.length_take]
      omega
    · simp only [h1, if_false, h2]
      omega

theorem padIf_getElem_lt {α : Type} (l : List α) (n : Nat) (ext : List α) (i : Nat)
    (hi : i < l.length) (hin : i < n) :
    (if l.length < n then l ++ ext else if n < l.length then l.take n
      else l)[i]? = l[i]? := by
  by_cases h1 : l.length < n
  · rw [if_pos h1, List.getElem?_append_left hi]
  · rw [if_neg h1]
    by_cases h2 : n < l.length
    · rw [if_pos h2, List.getElem?_take_of_lt hin]
    · rw [if_neg h2]

theorem padIf_getElem_ge {α : Type} (l : List α) (n : Nat) (ext : List α) (i : Nat)
    (hi : l.length ≤ i) (hin : i < n) :
    (if l.length < n then l ++ ext else if n < l.length then l.take n
      else l)[i]? = ext[i - l.length]? := by
  have h1 : l.length < n := lt_of_le_of_lt hi hin
  rw [if_pos h1, List.getElem?_append_right hi]

/-- C9: for a positive target `count`, `set_message_count` brings the
messages list to length `count` (padding with the numbered placeholder texts
or truncating) and the delays list to length `count` (padding with the
300-second default or truncating), leaves every existing entry below `count`
unchanged, and persists the config; in particular `len(delays) ==
len(messages)` holds afterwards. -/
theorem set_message_count_correct (st : PState) (count : Int) (hpos : 0 < count) :
    (set_message_count st count).config.messages.length = count.toNat
    ∧ (set_message_count st count).config.delays.length = count.toNat
    ∧ (∀ i : Nat, i < st.config.messages.length → i < count.toNat →
        (set_message_count st count).config.messages[i]? = st.config.messages[i]?)
    ∧ (∀ i : Nat, i < st.config.delays.length → i < count.toNat →
        (set_message_count st count).config.delays[i]? = st.config.delays[i]?)
    ∧ (∀ i : Nat, st.config.messages.length ≤ i → i < count.toNat →
        (set_message_count st count).config.messages[i]? =
          some ("Message " ++ toString (i + 1) ++ " - please edit this"))
    ∧ (∀ i : Nat, st.config.delays.length ≤ i → i < count.toNat →
        (set_message_count st count).config.delays[i]? = some 300)
    ∧ (set_message_count st count).config_file = (set_message_count st count).config := by
  have hn : ¬count ≤ 0 := not_le.mpr hpos
  unfold set_message_count save_config
  simp only [hn, if_false]
  refine ⟨?_, ?_, ?_, ?_, ?_, ?_, trivial⟩
  · exact padIf_length _ _ _ (by simp)
  · exact padIf_length _ _ _ (by simp)
  · intro i h1 h2
    exact padIf_getElem_lt _ _ _ i h1 h2
  · intro i h1 h2
    exact padIf_getElem_lt _ _ _ i h1 h2
  · intro i h1 h2
    have hlt : i - st.config.messages.length <
        count.toNat - st.config.messages.length := by omega
    have hidx : st.config.messages.length + 1 * (i - st.config.messages.length) = i := by
      omega
    rw [padIf_getElem_ge _ _ _ _ h1 h2, List.getElem?_map,
      List.getElem?_eq_getElem (by simpa using hlt)]
    simp only [List.getElem_range', Option.map_some', hidx]
  · intro i h1 h2
    rw [padIf_getElem_ge _ _ _ _ h1 h2,
      List.getElem?_replicate_of_lt (by omega)]

/-- A publisher configured with 2 messages and 2 delays. -/
def stTwo : PState :=
  { config := { messages := ["one", "two"], delays := [5, 6], min_delay := 10,
                max_delay := 60, daily_limit := 50, last_sent := [] },
    groups := [],
    config_file := { messages := ["one", "two"], delays := [5, 6], min_delay := 10,
                     max_delay := 60, daily_limit := 50, last_sent := [] },
    groups_file := [] }

theorem set_message_count_correct_witness :
    (0 : Int) < 4 ∧
    (set_message_count stTwo 4).config.messages.length = (4 : Int).toNat ∧
    (set_message_count stTwo 4).config.delays.length = (4 : Int).toNat ∧
    (set_message_count stTwo 4).config.messages =
      ["one", "two", "Message 3 - please edit this",
        "Message 4 - please edit this"] ∧
    (set_message_count stTwo 4).config.delays = [5, 6, 300, 300] := by
  refine ⟨by decide, (set_message_count_correct stTwo 4 (by decide)).1,
    (set_message_count_correct stTwo 4 (by decide)).2.1, by decide, by decide⟩

end Tpublish
